import Mathlib

/-!
Shallow embedding of the ipfs-ds-postgres datastore (src/datastore.go and
src/batching.go): a PostgreSQL-backed key/value store over a single table
(key TEXT PRIMARY KEY, data BYTEA).

Machine values: keys are canonical strings, stored values are byte lists,
the table state is a map from key strings to optional byte values.
The go-datastore query combinators (dsq.NaiveFilter, dsq.NaiveOrder,
dsq.NaiveOffset, dsq.NaiveLimit) and the key codec (ds.NewKey(.).String(),
which applies Go path.Clean after forcing a leading slash) live in
dependencies of this repository, not under src/; where their behavior
decides a claim, the definition carries a comment saying what it models.
-/

/-- Byte strings stored in the data column (Go byte slices). -/
abbrev Bytes := List UInt8

/-- The backing table state: a map from key strings to stored values. -/
abbrev Db := String → Option Bytes

/-! ### Key codec: ds.NewKey(s).String()

The go-datastore key codec (dependency, not under src/) cleans a key string
by forcing a leading slash and then applying Go path.Clean, which for rooted
paths drops empty and dot segments, resolves dot-dot segments against the
stack of earlier segments (stopping at the root), and strips any trailing
slash. -/

/-- Split a character list at every slash, keeping empty segments. -/
def splitOnSlash : List Char → List (List Char)
  | [] => [[]]
  | c :: rest =>
    match splitOnSlash rest with
    | [] => if c = '/' then [[], []] else [[c]]
    | seg :: segs => if c = '/' then [] :: seg :: segs else (c :: seg) :: segs

/-- Join segments with a slash between consecutive segments. -/
def joinSegs : List (List Char) → List Char
  | [] => []
  | [s] => s
  | s :: rest => s ++ '/' :: joinSegs rest

/-- Go path.Clean restricted to rooted inputs (every call site here passes a
string that starts with a slash): drop empty and single-dot segments, let a
dot-dot segment pop the previously kept segment (popping at the root is a
no-op), and rebuild the path with a leading slash and no trailing slash.
The empty segment stack renders as the root "/". -/
def cleanRooted (s : String) : String :=
  let segs := (splitOnSlash s.data).filter (fun t => (t != []) && (t != ['.']))
  let acc := segs.foldl
    (fun acc t => if t = ['.', '.'] then acc.dropLast else acc ++ [t])
    ([] : List (List Char))
  String.mk ('/' :: joinSegs acc)

/-- ds.NewKey(s).String() from go-datastore (dependency, not under src/):
the empty string becomes the root; a string with a leading slash is cleaned
as is; any other string is cleaned after prepending a slash. -/
def keyString (s : String) : String :=
  match s.data with
  | [] => "/"
  | c :: _ => if c = '/' then cleanRooted s else cleanRooted (String.mk ('/' :: s.data))

/-! ### SQL LIKE matching

Semantics of the PostgreSQL LIKE operator (no escape character): percent
matches any sequence of characters, underscore matches any single character,
every other pattern character matches only itself, and the pattern must
cover the whole string. -/

/-- LIKE pattern matching over character lists, by recursion on the
pattern: a percent tries every split point of the remaining string. -/
def likeMatch : List Char → List Char → Bool
  | [], s => s.isEmpty
  | c :: ps, s =>
    if c = '%' then
      (List.range (s.length + 1)).any (fun i => likeMatch ps (s.drop i))
    else
      match s with
      | [] => false
      | d :: s2 => (if c = '_' then true else c == d) && likeMatch ps s2

/-- Boolean string-prefix test over character lists. -/
def prefixOfB : List Char → List Char → Bool
  | [], _ => true
  | _ :: _, [] => false
  | c :: p, d :: s => (c == d) && prefixOfB p s

/-- Whether a pattern fragment contains a LIKE wildcard character. -/
def likeHasWild (p : List Char) : Bool := p.any (fun c => c == '%' || c == '_')

/-! ### Query descriptor and entries (go-datastore query types) -/

/-- A decoded query result entry: key plus optional value bytes and optional
size, depending on the projection mode (Go dsq.Entry, with the unset zero
values of the Go struct modeled as none). -/
structure Entry where
  key : String
  value : Option Bytes
  size : Option Int
deriving DecidableEq, Repr

/-- The query descriptor consumed by Datastore.Query (Go dsq.Query):
prefix string, filter predicates, order comparators, limit and offset
(Go int, 0 meaning unbounded and no skip), and the projection flags. -/
structure DsQuery where
  prefixStr : String
  filters : List (Entry → Bool)
  orders : List (Entry → Entry → Ordering)
  limit : Int
  offset : Int
  keysOnly : Bool
  returnsSizes : Bool

/-! ### SQL text built by Datastore.Query (datastore.go lines 96-122) -/

/-- Columns the generated SELECT projects. -/
inductive Col
  | key
  | octetLength
  | data
deriving DecidableEq, Repr

/-- Structured form of the SQL string Datastore.Query builds: the projected
columns, the table name, the optional LIKE pattern body of the WHERE clause
(the clause always carries ORDER BY key with it), and the optional pushed
down LIMIT and OFFSET values. -/
structure SqlQuery where
  cols : List Col
  table : String
  whereLike : Option String
  limit : Option Int
  offset : Option Int
deriving DecidableEq, Repr

/-- The SQL construction of Datastore.Query, clause by clause, mirroring
datastore.go lines 97-122: projection by the two flags; a WHERE key LIKE
clause from the canonicalized prefix plus a trailing slash when the raw
prefix is nonempty and the canonical form is not the root; LIMIT and OFFSET
appended only when there are no filters and no orders and the value is
nonzero. -/
def buildQuerySQL (tbl : String) (q : DsQuery) : SqlQuery :=
  let cols := if q.keysOnly && q.returnsSizes then [Col.key, Col.octetLength]
    else if q.keysOnly then [Col.key]
    else [Col.key, Col.data]
  let wl := if q.prefixStr ≠ "" then
      let p := keyString q.prefixStr
      if p ≠ "/" then some (p ++ "/") else none
    else none
  let pushdown := q.filters.isEmpty && q.orders.isEmpty
  { cols := cols, table := tbl, whereLike := wl,
    limit := if pushdown && !(q.limit == 0) then some q.limit else none,
    offset := if pushdown && !(q.offset == 0) then some q.offset else none }

/-- A single-quote character as a string (the quoting used around the LIKE
pattern in the generated SQL). -/
def sqlQuote : String := "\x27"

/-- SQL name of a projected column. -/
def colName : Col → String
  | Col.key => "key"
  | Col.octetLength => "octet_length(data)"
  | Col.data => "data"

/-- The SELECT head of the generated SQL. -/
def selectText (cols : List Col) (tbl : String) : String :=
  "SELECT " ++ String.intercalate ", " (cols.map colName) ++ " FROM " ++ tbl

/-- The WHERE fragment of the generated SQL: datastore.go line 110 appends
the quoted pattern, prefix plus slash plus percent, and ORDER BY key. -/
def whereText (s : SqlQuery) : String :=
  match s.whereLike with
  | some p => " WHERE key LIKE " ++ sqlQuote ++ p ++ "%" ++ sqlQuote ++ " ORDER BY key"
  | none => ""

/-- The LIMIT fragment of the generated SQL (datastore.go line 117). -/
def limitText (s : SqlQuery) : String :=
  match s.limit with
  | some n => " LIMIT " ++ toString n
  | none => ""

/-- The OFFSET fragment of the generated SQL (datastore.go line 120). -/
def offsetText (s : SqlQuery) : String :=
  match s.offset with
  | some n => " OFFSET " ++ toString n
  | none => ""

/-- The full SQL text Datastore.Query sends to the pool. -/
def renderSQL (s : SqlQuery) : String :=
  selectText s.cols s.table ++ whereText s ++ limitText s ++ offsetText s

/-! ### Naive post-processing stages composed by Datastore.Query
(datastore.go lines 174-188) -/

/-- The in-memory stages that can wrap the streamed result sequence. -/
inductive Call
  | filterC
  | orderC
  | offsetC
  | limitC
deriving DecidableEq, Repr

/-- dsq.NaiveFilter wraps the sequence with one filter stage per call
(go-datastore dependency; it has no emptiness guard, and the repository
calls it once per filter predicate). -/
def naiveFilterStage (p : List Call) : List Call := p ++ [Call.filterC]

/-- Modelled from the spec: dsq.NaiveOrder (go-datastore, not under src/)
returns its input sequence unchanged when given no comparators and
otherwise composes the materializing order stage over it. -/
def naiveOrderStage (ords : List (Entry → Entry → Ordering)) (p : List Call) : List Call :=
  if ords.isEmpty then p else p ++ [Call.orderC]

/-- dsq.NaiveOffset wraps the sequence with a skip stage (the repository
guards the call on a nonzero offset). -/
def naiveOffsetStage (p : List Call) : List Call := p ++ [Call.offsetC]

/-- Modelled from the spec: dsq.NaiveLimit (go-datastore, not under src/)
treats limit zero as unbounded, returning its input unchanged, and
otherwise composes a truncation stage. -/
def naiveLimitStage (n : Int) (p : List Call) : List Call :=
  if n == 0 then p else p ++ [Call.limitC]

/-- The ordered list of in-memory stages Datastore.Query composes over the
result sequence, earlier entries applied first, mirroring datastore.go lines
174-188: one NaiveFilter call per filter, then one unconditional NaiveOrder
call, then, only when filters or orders are present, NaiveOffset guarded on
a nonzero offset followed by NaiveLimit guarded on a nonzero limit. -/
def composedStages (q : DsQuery) : List Call :=
  let p := q.filters.foldl (fun p _ => naiveFilterStage p) []
  let p := naiveOrderStage q.orders p
  if q.filters.length > 0 || q.orders.length > 0 then
    let p2 := if !(q.offset == 0) then naiveOffsetStage p else p
    if !(q.limit == 0) then naiveLimitStage q.limit p2 else p2
  else p

/-! ### Row decoding in the Query iterator (datastore.go lines 138-164) -/

/-- Decoding of one streamed row into an entry, as the iterator Next does:
with keys-only and returns-sizes the scanned columns are the key and the
byte length of the stored value; with keys-only alone just the key; in the
full mode the key and the value, with the size filled from the value length
when returns-sizes is set. -/
def decodeRow (q : DsQuery) (key : String) (data : Bytes) : Entry :=
  if q.keysOnly && q.returnsSizes then
    { key := key, value := none, size := some (data.length : Int) }
  else if q.keysOnly then
    { key := key, value := none, size := none }
  else
    { key := key, value := some data,
      size := if q.returnsSizes then some (data.length : Int) else none }

/-! ### Single-key operations (datastore.go) -/

/-- The error outcomes single-key operations can report: the distinguished
not-found outcome (ds.ErrNotFound, returned when row.Scan reports
pgx.ErrNoRows) or a backend failure passed through verbatim. -/
inductive DsError
  | notFound
  | backend (msg : String)
deriving DecidableEq, Repr

/-- Datastore.Get (datastore.go lines 56-68): select the data column by key
equality; an absent row (pgx.ErrNoRows) maps to ds.ErrNotFound with a nil
value, a present row returns its bytes. -/
def dsGet (db : Db) (k : String) : Option Bytes × Option DsError :=
  match db k with
  | none => (none, some DsError.notFound)
  | some v => (some v, none)

/-- Datastore.GetSize (datastore.go lines 199-211): select the byte length
of the data column by key equality; an absent row maps to ds.ErrNotFound
with the sentinel size minus one, a present row returns its length. -/
def dsGetSize (db : Db) (k : String) : Int × Option DsError :=
  match db k with
  | none => (-1, some DsError.notFound)
  | some v => ((v.length : Int), none)

/-- Datastore.Put (datastore.go lines 85-93): the effect on the table state
of INSERT ... ON CONFLICT (key) DO UPDATE SET data, an upsert that inserts
the row or overwrites the data column of the conflicting row. -/
def dsPut (db : Db) (k : String) (v : Bytes) : Db :=
  fun k2 => if k2 = k then some v else db k2

/-- Datastore.Delete (datastore.go lines 46-52): the effect on the table
state of DELETE by key equality; deleting an absent key changes nothing. -/
def dsDelete (db : Db) (k : String) : Db :=
  fun k2 => if k2 = k then none else db k2

/-! ### Parameterized statements (SQL text plus bound arguments)

Each single-key operation sends one parameterized statement: the SQL text
contains only the configuration-time table name and parameter placeholders,
and the per-call key and value travel in the argument list handed to the
pool (datastore.go, batching.go). Datastore.Query by contrast sends its
generated text with no arguments at all. -/

/-- A bound statement argument. -/
inductive Arg
  | str (s : String)
  | bytes (b : Bytes)
deriving DecidableEq, Repr

/-- A statement as sent to the pool: SQL text plus bound arguments. -/
structure Stmt where
  text : String
  args : List Arg
deriving DecidableEq, Repr

/-- The statement Datastore.Get sends (datastore.go lines 57-58). -/
def getStmt (tbl k : String) : Stmt :=
  { text := "SELECT data FROM " ++ tbl ++ " WHERE key = $1", args := [Arg.str k] }

/-- The statement Datastore.Has sends (datastore.go lines 72-73). -/
def hasStmt (tbl k : String) : Stmt :=
  { text := "SELECT exists(SELECT 1 FROM " ++ tbl ++ " WHERE key = $1)",
    args := [Arg.str k] }

/-- The statement Datastore.GetSize sends (datastore.go lines 200-201). -/
def getSizeStmt (tbl k : String) : Stmt :=
  { text := "SELECT octet_length(data) FROM " ++ tbl ++ " WHERE key = $1",
    args := [Arg.str k] }

/-- The statement Datastore.Put and batch.Put send (datastore.go line 87,
batching.go line 23). -/
def putStmt (tbl k : String) (v : Bytes) : Stmt :=
  { text := "INSERT INTO " ++ tbl ++
      " (key, data) VALUES ($1, $2) ON CONFLICT (key) DO UPDATE SET data = $2",
    args := [Arg.str k, Arg.bytes v] }

/-- The statement Datastore.Delete and batch.Delete send (datastore.go line
47, batching.go line 31). -/
def deleteStmt (tbl k : String) : Stmt :=
  { text := "DELETE FROM " ++ tbl ++ " WHERE key = $1", args := [Arg.str k] }

/-- The statement Datastore.Query sends (datastore.go line 124): the
generated text, with an empty argument list. -/
def queryStmt (tbl : String) (q : DsQuery) : Stmt :=
  { text := renderSQL (buildQuerySQL tbl q), args := [] }

/-! ### Batch accumulator (batching.go) -/

/-- The BEGIN statement queued before each batched operation. -/
def beginStmt : Stmt := { text := "BEGIN", args := [] }

/-- The COMMIT statement queued after each batched operation. -/
def commitStmt : Stmt := { text := "COMMIT", args := [] }

/-- batch.Put (batching.go lines 21-27): queue BEGIN, the upsert statement,
and COMMIT onto the pending batch; the returned error is always nil. -/
def batchPutQueue (tbl : String) (b : List Stmt) (k : String) (v : Bytes) :
    List Stmt × Option DsError :=
  (b ++ [beginStmt, putStmt tbl k v, commitStmt], none)

/-- batch.Delete (batching.go lines 29-34): queue BEGIN, the delete
statement, and COMMIT onto the pending batch; the returned error is always
nil. -/
def batchDeleteQueue (tbl : String) (b : List Stmt) (k : String) :
    List Stmt × Option DsError :=
  (b ++ [beginStmt, deleteStmt tbl k, commitStmt], none)

/-- A queued batch operation. -/
inductive BatchOp
  | putOp (k : String) (v : Bytes)
  | delOp (k : String)

/-- The three statements one batched operation queues. -/
def opStmts (tbl : String) : BatchOp → List Stmt
  | BatchOp.putOp k v => [beginStmt, putStmt tbl k v, commitStmt]
  | BatchOp.delOp k => [beginStmt, deleteStmt tbl k, commitStmt]

/-- The batch contents after queueing a list of operations in order. -/
def queueOps (tbl : String) (b : List Stmt) : List BatchOp → List Stmt
  | [] => b
  | BatchOp.putOp k v :: rest => queueOps tbl (batchPutQueue tbl b k v).1 rest
  | BatchOp.delOp k :: rest => queueOps tbl (batchDeleteQueue tbl b k).1 rest

/-- The drain loop of batch.Commit (batching.go lines 40-45) over the
per-statement outcomes of the single SendBatch round trip, one outcome per
queued statement in submission order: each iteration consumes the next
result; the loop returns the first error it meets and stops consuming.
The result is the returned error and the number of results consumed. -/
def commitDrain : List (Option DsError) → Option DsError × Nat
  | [] => (none, 0)
  | none :: rest =>
    let r := commitDrain rest
    (r.1, r.2 + 1)
  | some e :: _ => (some e, 1)

/-- The first error among the per-statement outcomes, in submission order. -/
def firstErr (rs : List (Option DsError)) : Option DsError :=
  (rs.filterMap id).head?

/-- batch.Commit (batching.go lines 36-48): drain the batch results and
release the result cursor regardless of the outcome (the deferred
res.Close()); the third component records that the cursor was released. -/
def batchCommit (rs : List (Option DsError)) : Option DsError × Nat × Bool :=
  let r := commitDrain rs
  (r.1, r.2, true)

/-! ### Concrete inputs used by the witnesses below -/

/-- A descriptor with one filter, a limit, and an offset. -/
def qFilterLim : DsQuery :=
  { prefixStr := "", filters := [fun _ => true], orders := [], limit := 2,
    offset := 1, keysOnly := false, returnsSizes := false }

/-- A descriptor whose prefix is the key "/a". -/
def qPrefixA : DsQuery :=
  { prefixStr := "/a", filters := [], orders := [], limit := 0, offset := 0,
    keysOnly := false, returnsSizes := false }

/-- A keys-only, returns-sizes descriptor. -/
def qKeysSizes : DsQuery :=
  { prefixStr := "", filters := [], orders := [], limit := 0, offset := 0,
    keysOnly := true, returnsSizes := true }

/-- A descriptor with a filter and zero limit and offset. -/
def qZeroLim : DsQuery :=
  { prefixStr := "", filters := [fun _ => true], orders := [], limit := 0,
    offset := 0, keysOnly := false, returnsSizes := false }

/-- A descriptor whose prefix is a hostile per-call string. -/
def qEvil : DsQuery :=
  { prefixStr := "/evil", filters := [], orders := [], limit := 0, offset := 0,
    keysOnly := false, returnsSizes := false }

/-- A one-row table state holding the bytes 1, 2, 3 at the key "/k". -/
def dbOne : Db := fun s => if s = "/k" then some [1, 2, 3] else none

/-! ### Helper lemmas -/

/-- A pattern consisting of a single percent matches every string. -/
theorem likeMatch_percent_end (s : List Char) : likeMatch ['%'] s = true := by
  have h : likeMatch ['%'] s
      = (List.range (s.length + 1)).any (fun i => likeMatch [] (s.drop i)) := by
    simp [likeMatch]
  rw [h, List.any_eq_true]
  exact ⟨s.length, by simp [List.mem_range], by simp [likeMatch]⟩

/-- A wildcard-free fragment followed by a percent matches exactly the
strings extending that fragment. -/
theorem likeMatch_prefix_pattern (p s : List Char) (h : likeHasWild p = false) :
    likeMatch (p ++ ['%']) s = prefixOfB p s := by
  induction p generalizing s with
  | nil => simp [prefixOfB, likeMatch_percent_end]
  | cons c cs ih =>
    simp only [likeHasWild, List.any_cons, Bool.or_eq_false_iff] at h
    obtain ⟨⟨hcp, hcu⟩, hcs⟩ := h
    have hcp2 : ¬ c = '%' := by simpa using hcp
    have hcu2 : ¬ c = '_' := by simpa using hcu
    cases s with
    | nil => simp [likeMatch, prefixOfB, hcp2]
    | cons d s2 =>
      simp [likeMatch, prefixOfB, hcp2, hcu2, ih s2 hcs]

/-- Composing one filter stage per filter turns the foldl of datastore.go
line 174 into an appended run of filter markers. -/
theorem foldl_naiveFilterStage (fs : List (Entry → Bool)) (p : List Call) :
    fs.foldl (fun p _ => naiveFilterStage p) p = p ++ fs.map (fun _ => Call.filterC) := by
  induction fs generalizing p with
  | nil => simp
  | cons f rest ih => rw [List.foldl_cons, ih]; simp [naiveFilterStage]

/-- Closed form of the composed stage list. -/
theorem composedStages_eq (q : DsQuery) :
    composedStages q =
      q.filters.map (fun _ => Call.filterC)
      ++ (if q.orders.isEmpty then [] else [Call.orderC])
      ++ (if q.filters.length > 0 || q.orders.length > 0 then
            (if q.offset == 0 then [] else [Call.offsetC])
            ++ (if q.limit == 0 then [] else [Call.limitC])
          else []) := by
  unfold composedStages naiveOrderStage naiveOffsetStage naiveLimitStage
  rw [foldl_naiveFilterStage]
  by_cases h1 : q.orders.isEmpty <;>
    by_cases h2 : q.filters.length > 0 || q.orders.length > 0 <;>
      by_cases h3 : q.offset == 0 <;>
        by_cases h4 : q.limit == 0 <;>
          simp [h1, h2, h3, h4]

/-- Membership of each stage marker in the composed stage list. -/
theorem stages_mem (q : DsQuery) :
    ((Call.filterC ∈ composedStages q) ↔ q.filters ≠ [])
    ∧ ((Call.orderC ∈ composedStages q) ↔ q.orders ≠ [])
    ∧ ((Call.offsetC ∈ composedStages q)
        ↔ ((q.filters ≠ [] ∨ q.orders ≠ []) ∧ q.offset ≠ 0))
    ∧ ((Call.limitC ∈ composedStages q)
        ↔ ((q.filters ≠ [] ∨ q.orders ≠ []) ∧ q.limit ≠ 0)) := by
  obtain ⟨pre, fs, ords, lim, off, ko, rs⟩ := q
  rw [composedStages_eq]
  cases fs <;> cases ords <;>
    by_cases h3 : off = 0 <;>
      by_cases h4 : lim = 0 <;>
        simp_all [List.mem_append, List.mem_map, beq_iff_eq]

/-- The drain loop returns the first error in submission order and consumes
one result per statement up to and including the first failing one. -/
theorem commitDrain_spec (rs : List (Option DsError)) :
    (commitDrain rs).1 = firstErr rs
    ∧ (commitDrain rs).2 =
        (if (firstErr rs).isSome then (rs.takeWhile Option.isNone).length + 1
         else rs.length)
    ∧ (commitDrain rs).2 ≤ rs.length := by
  induction rs with
  | nil => simp [commitDrain, firstErr]
  | cons r rest ih =>
    cases r with
    | none =>
      obtain ⟨ih1, ih2, ih3⟩ := ih
      have hfe : firstErr (none :: rest) = firstErr rest := by simp [firstErr]
      have htw : (none :: rest).takeWhile Option.isNone
          = none :: rest.takeWhile Option.isNone := by
        simp [List.takeWhile_cons]
      refine ⟨?_, ?_, ?_⟩
      · show (commitDrain rest).1 = firstErr (none :: rest)
        rw [hfe, ih1]
      · show (commitDrain rest).2 + 1 = _
        rw [hfe, htw, ih2]
        by_cases h : (firstErr rest).isSome <;> simp [h]
      · show (commitDrain rest).2 + 1 ≤ rest.length + 1
        exact Nat.succ_le_succ ih3
    | some e => simp [commitDrain, firstErr, List.takeWhile]

/-- Draining all-success outcomes consumes every result. -/
theorem commitDrain_map_none {α : Type} (l : List α) :
    commitDrain (l.map (fun _ => (none : Option DsError))) = (none, l.length) := by
  induction l with
  | nil => simp [commitDrain]
  | cons x rest ih =>
    simp only [List.map_cons, commitDrain]
    rw [ih]
    rfl

/-- The queued batch is the flattening of the per-operation triples. -/
theorem queueOps_eq (tbl : String) (b : List Stmt) (ops : List BatchOp) :
    queueOps tbl b ops = b ++ (ops.map (opStmts tbl)).flatten := by
  induction ops generalizing b with
  | nil => simp [queueOps]
  | cons op rest ih =>
    cases op <;> simp [queueOps, batchPutQueue, batchDeleteQueue, opStmts, ih]

/-- A batch of n operations holds exactly three statements per operation. -/
theorem flatten_opStmts_length (tbl : String) (ops : List BatchOp) :
    ((ops.map (opStmts tbl)).flatten).length = 3 * ops.length := by
  induction ops with
  | nil => simp
  | cons op rest ih => cases op <;> simp [opStmts, ih] <;> omega

/-! ### Claim theorems -/

/-- Claim C5: for every key, when the backing row is absent Get returns the
distinguished not-found outcome, which is not a backend error, and GetSize
returns the same not-found outcome together with the sentinel-invalid size
minus one; when the row exists, Get returns its value bytes and GetSize the
byte length of the stored value. -/
theorem get_getsize_notfound_and_present (db : Db) (k : String) :
    (db k = none →
      dsGet db k = (none, some DsError.notFound)
      ∧ dsGetSize db k = (-1, some DsError.notFound)
      ∧ ∀ m, (DsError.notFound : DsError) ≠ DsError.backend m)
    ∧ (∀ v, db k = some v →
      dsGet db k = (some v, none)
      ∧ dsGetSize db k = ((v.length : Int), none)) := by
  constructor
  · intro h
    refine ⟨by simp [dsGet, h], by simp [dsGetSize, h], fun m => by simp⟩
  · intro v h
    exact ⟨by simp [dsGet, h], by simp [dsGetSize, h]⟩

/-- Witness for claim C5 on a concrete one-row table: the key "/x" is
absent, the key "/k" holds three bytes. -/
theorem get_getsize_notfound_and_present_witness :
    (dsGet dbOne "/x" = (none, some DsError.notFound)
      ∧ dsGetSize dbOne "/x" = (-1, some DsError.notFound)
      ∧ ∀ m, (DsError.notFound : DsError) ≠ DsError.backend m)
    ∧ (dsGet dbOne "/k" = (some [1, 2, 3], none)
      ∧ dsGetSize dbOne "/k" = (3, none)) :=
  ⟨(get_getsize_notfound_and_present dbOne "/x").1 (by decide),
   (get_getsize_notfound_and_present dbOne "/k").2 [1, 2, 3] (by decide)⟩

/-- Claim C9: Put followed by Get returns the stored value, and repeating
Put with the same key and value leaves both the table state and the Get
result unchanged, because the statement is an insert-or-overwrite upsert. -/
theorem put_get_roundtrip (db : Db) (k : String) (v : Bytes) :
    dsGet (dsPut db k v) k = (some v, none)
    ∧ dsPut (dsPut db k v) k v = dsPut db k v
    ∧ dsGet (dsPut (dsPut db k v) k v) k = (some v, none) := by
  refine ⟨by simp [dsGet, dsPut], funext fun k2 => ?_, by simp [dsGet, dsPut]⟩
  by_cases h : k2 = k <;> simp [dsPut, h]

/-- Claim C4: the selected columns and the per-row decoding follow the
projection mode exactly: keys-only with returns-sizes selects key and byte
length and the entry carries key and size but never the value; keys-only
alone selects the key and the entry carries only the key; otherwise key and
value are selected and the entry carries both, with the size filled from
the value length when returns-sizes is set. -/
theorem query_projection_matches_mode (tbl : String) (q : DsQuery)
    (key : String) (data : Bytes) :
    (q.keysOnly = true → q.returnsSizes = true →
      (buildQuerySQL tbl q).cols = [Col.key, Col.octetLength]
      ∧ decodeRow q key data =
          { key := key, value := none, size := some (data.length : Int) })
    ∧ (q.keysOnly = true → q.returnsSizes = false →
      (buildQuerySQL tbl q).cols = [Col.key]
      ∧ decodeRow q key data = { key := key, value := none, size := none })
    ∧ (q.keysOnly = false →
      (buildQuerySQL tbl q).cols = [Col.key, Col.data]
      ∧ decodeRow q key data =
          { key := key, value := some data,
            size := if q.returnsSizes then some (data.length : Int) else none }) := by
  refine ⟨fun h1 h2 => ?_, fun h1 h2 => ?_, fun h1 => ?_⟩ <;>
    constructor <;> simp [buildQuerySQL, decodeRow, h1, *]

/-- Witness for claim C4 at the keys-only, returns-sizes projection on a
concrete two-byte row. -/
theorem query_projection_matches_mode_witness :
    (buildQuerySQL "blocks" qKeysSizes).cols = [Col.key, Col.octetLength]
    ∧ decodeRow qKeysSizes "/a/1" [7, 8] =
        { key := "/a/1", value := none, size := some 2 } :=
  (query_projection_matches_mode "blocks" qKeysSizes "/a/1" [7, 8]).1 rfl rfl

/-- Claim C7: a limit of zero means unbounded and an offset of zero means
no skip: no LIMIT or OFFSET clause is emitted and no naive limit or offset
stage is composed, so neither value is ever read as returning zero rows. -/
theorem zero_limit_offset_mean_unbounded (tbl : String) (q : DsQuery) :
    (q.limit = 0 →
      (buildQuerySQL tbl q).limit = none
      ∧ limitText (buildQuerySQL tbl q) = ""
      ∧ Call.limitC ∉ composedStages q)
    ∧ (q.offset = 0 →
      (buildQuerySQL tbl q).offset = none
      ∧ offsetText (buildQuerySQL tbl q) = ""
      ∧ Call.offsetC ∉ composedStages q) := by
  constructor
  · intro h
    have hf : (buildQuerySQL tbl q).limit = none := by simp [buildQuerySQL, h]
    exact ⟨hf, by simp [limitText, hf], by simp [(stages_mem q).2.2.2, h]⟩
  · intro h
    have hf : (buildQuerySQL tbl q).offset = none := by simp [buildQuerySQL, h]
    exact ⟨hf, by simp [offsetText, hf], by simp [(stages_mem q).2.2.1, h]⟩

/-- Witness for claim C7 at a descriptor with one filter and zero limit
and offset. -/
theorem zero_limit_offset_mean_unbounded_witness :
    ((buildQuerySQL "blocks" qZeroLim).limit = none
      ∧ limitText (buildQuerySQL "blocks" qZeroLim) = ""
      ∧ Call.limitC ∉ composedStages qZeroLim)
    ∧ ((buildQuerySQL "blocks" qZeroLim).offset = none
      ∧ offsetText (buildQuerySQL "blocks" qZeroLim) = ""
      ∧ Call.offsetC ∉ composedStages qZeroLim) :=
  ⟨(zero_limit_offset_mean_unbounded "blocks" qZeroLim).1 rfl,
   (zero_limit_offset_mean_unbounded "blocks" qZeroLim).2 rfl⟩

/-- Claim C2: each naive post-processing stage (filter, order,
offset/limit) is composed over the result sequence exactly when that stage
is needed, never unconditionally; in particular the materializing order
stage wraps the sequence only when the descriptor has at least one order
comparator (Datastore.Query calls the NaiveOrder combinator on every query,
and the combinator, modelled from the spec, returns its input unchanged on
an empty comparator list). -/
theorem naive_stages_composed_only_when_needed (q : DsQuery) :
    ((Call.filterC ∈ composedStages q) ↔ q.filters ≠ [])
    ∧ ((Call.orderC ∈ composedStages q) ↔ q.orders ≠ [])
    ∧ ((Call.offsetC ∈ composedStages q)
        ↔ ((q.filters ≠ [] ∨ q.orders ≠ []) ∧ q.offset ≠ 0))
    ∧ ((Call.limitC ∈ composedStages q)
        ↔ ((q.filters ≠ [] ∨ q.orders ≠ []) ∧ q.limit ≠ 0)) :=
  stages_mem q

/-- Claim C1: for a descriptor with a nonzero limit and a nonzero offset,
the generated SQL gains LIMIT and OFFSET clauses exactly when the
descriptor has zero filters and zero order comparators; when at least one
filter or comparator is present the clauses are not emitted and offset and
limit are instead composed in memory after the filter and order stages, in
the order filter, order, offset, limit. -/
theorem limit_offset_pushdown_eligibility (tbl : String) (q : DsQuery)
    (hl : q.limit ≠ 0) (ho : q.offset ≠ 0) :
    (((buildQuerySQL tbl q).limit.isSome ∧ (buildQuerySQL tbl q).offset.isSome)
      ↔ (q.filters = [] ∧ q.orders = []))
    ∧ ((q.filters ≠ [] ∨ q.orders ≠ []) →
        (buildQuerySQL tbl q).limit = none
        ∧ (buildQuerySQL tbl q).offset = none
        ∧ composedStages q =
            q.filters.map (fun _ => Call.filterC)
            ++ (if q.orders.isEmpty then [] else [Call.orderC])
            ++ [Call.offsetC, Call.limitC]) := by
  obtain ⟨pre, fs, ords, lim, off, ko, rs⟩ := q
  simp only [ne_eq] at hl ho
  constructor
  · cases fs <;> cases ords <;> simp_all [buildQuerySQL, beq_iff_eq]
  · intro hno
    rw [composedStages_eq]
    cases fs <;> cases ords <;> simp_all [buildQuerySQL, beq_iff_eq]

/-- Witness for claim C1 at a descriptor with one filter, limit two and
offset one: no pushdown, and the in-memory stages run filter, offset,
limit in that order (no order stage, the descriptor has no comparators). -/
theorem limit_offset_pushdown_eligibility_witness :
    (buildQuerySQL "blocks" qFilterLim).limit = none
    ∧ (buildQuerySQL "blocks" qFilterLim).offset = none
    ∧ composedStages qFilterLim = [Call.filterC, Call.offsetC, Call.limitC] := by
  have h := (limit_offset_pushdown_eligibility "blocks" qFilterLim
    (by decide) (by decide)).2 (Or.inl (by simp [qFilterLim]))
  simpa [qFilterLim] using h

/-- Claim C3: a nonempty prefix whose canonical form is not the root makes
Query emit the WHERE key LIKE clause built from the canonical prefix plus
a trailing slash before the percent wildcard, together with ORDER BY key;
for a wildcard-free canonical prefix that pattern matches exactly the
strings extending prefix-plus-slash, so "/a" matches "/a/1" and never
"/ab"; an empty prefix, or one canonicalizing to the root, emits no
clause at all. -/
theorem query_prefix_like_clause (tbl : String) (q : DsQuery) (s : String)
    (hw : likeHasWild (keyString q.prefixStr).data = false) :
    ((buildQuerySQL tbl q).whereLike.isSome
      ↔ (q.prefixStr ≠ "" ∧ keyString q.prefixStr ≠ "/"))
    ∧ ((q.prefixStr = "" ∨ keyString q.prefixStr = "/") →
        whereText (buildQuerySQL tbl q) = "")
    ∧ (q.prefixStr ≠ "" → keyString q.prefixStr ≠ "/" →
        (buildQuerySQL tbl q).whereLike = some (keyString q.prefixStr ++ "/")
        ∧ whereText (buildQuerySQL tbl q) =
            " WHERE key LIKE " ++ sqlQuote ++ (keyString q.prefixStr ++ "/")
              ++ "%" ++ sqlQuote ++ " ORDER BY key"
        ∧ likeMatch ((keyString q.prefixStr ++ "/").data ++ ['%']) s.data
            = prefixOfB (keyString q.prefixStr ++ "/").data s.data) := by
  refine ⟨?_, ?_, fun h1 h2 => ?_⟩
  · by_cases h1 : q.prefixStr = "" <;>
      by_cases h2 : keyString q.prefixStr = "/" <;>
        simp [buildQuerySQL, h1, h2]
  · intro h
    rcases h with h | h <;> simp [buildQuerySQL, whereText, h]
  · have hwl : (buildQuerySQL tbl q).whereLike
        = some (keyString q.prefixStr ++ "/") := by
      simp [buildQuerySQL, h1, h2]
    refine ⟨hwl, by simp [whereText, hwl], ?_⟩
    apply likeMatch_prefix_pattern
    have hdat : (keyString q.prefixStr ++ "/").data
        = (keyString q.prefixStr).data ++ ['/'] := by
      simp [String.data_append]
    unfold likeHasWild at hw ⊢
    rw [hdat, List.any_append, hw]
    decide

/-- Witness for claim C3 at the prefix "/a": the clause pattern body is
"/a/", and the pattern matches "/a/1" but not "/ab". -/
theorem query_prefix_like_clause_witness :
    (buildQuerySQL "blocks" qPrefixA).whereLike = some "/a/"
    ∧ likeMatch ("/a/".data ++ ['%']) "/a/1".data = true
    ∧ likeMatch ("/a/".data ++ ['%']) "/ab".data = false := by
  have e : keyString qPrefixA.prefixStr = "/a" := by decide
  have e2 : ("/a" ++ "/" : String) = "/a/" := by decide
  have h1 := (query_prefix_like_clause "blocks" qPrefixA "/a/1" (by decide)).2.2
    (by decide) (by decide)
  have h2 := (query_prefix_like_clause "blocks" qPrefixA "/ab" (by decide)).2.2
    (by decide) (by decide)
  obtain ⟨ha, -, hm1⟩ := h1
  obtain ⟨-, -, hm2⟩ := h2
  rw [e, e2] at ha hm1 hm2
  refine ⟨ha, ?_, ?_⟩
  · rw [hm1]; decide
  · rw [hm2]; decide

/-- Claim C6: Commit sends the queued statements in one round trip and
drains the per-statement results one at a time in submission order,
stopping at the first error, which it returns, leaving the later results
unconsumed; the batch result cursor is released in every case (the third
component of the modelled Commit records the deferred close). -/
theorem commit_stops_at_first_error (rs : List (Option DsError)) :
    (batchCommit rs).2.2 = true
    ∧ (batchCommit rs).1 = firstErr rs
    ∧ (batchCommit rs).2.1 =
        (if (firstErr rs).isSome then (rs.takeWhile Option.isNone).length + 1
         else rs.length)
    ∧ (batchCommit rs).2.1 ≤ rs.length := by
  obtain ⟨h1, h2, h3⟩ := commitDrain_spec rs
  exact ⟨rfl, h1, h2, h3⟩

/-- Claim C8 counterexample: Datastore.Query interpolates the per-call
prefix into the generated SQL text and passes no bound arguments: for the
prefix "/evil" the per-call value stands inside the text itself, and the
text differs from the one generated for an empty prefix, refuting the
claim that every per-call value reaches the engine exclusively as a bound
statement parameter and never in the SQL text. -/
theorem query_prefix_interpolated_counterexample :
    (queryStmt "blocks" qEvil).args = []
    ∧ (queryStmt "blocks" qEvil).text =
        "SELECT key, data FROM blocks WHERE key LIKE " ++ sqlQuote
          ++ "/evil/%" ++ sqlQuote ++ " ORDER BY key"
    ∧ (queryStmt "blocks" qEvil).text
        ≠ (queryStmt "blocks" { qEvil with prefixStr := "" }).text :=
  ⟨rfl, by decide, by decide⟩

/-- Claim C8 amended: every single-key statement (Get, Has, GetSize, Put,
Delete, and the batched Put and Delete, which reuse putStmt and
deleteStmt) passes the key and value only as bound arguments, with SQL
text depending only on the configuration-time table name; Datastore.Query
however binds no arguments and instead interpolates the canonicalized
prefix (and the limit and offset numbers) into the SQL text. -/
theorem single_key_params_bound_query_interpolates
    (tbl k k2 : String) (v v2 : Bytes) (q : DsQuery) :
    (getStmt tbl k).text = (getStmt tbl k2).text
    ∧ (getStmt tbl k).args = [Arg.str k]
    ∧ (hasStmt tbl k).text = (hasStmt tbl k2).text
    ∧ (hasStmt tbl k).args = [Arg.str k]
    ∧ (getSizeStmt tbl k).text = (getSizeStmt tbl k2).text
    ∧ (getSizeStmt tbl k).args = [Arg.str k]
    ∧ (putStmt tbl k v).text = (putStmt tbl k2 v2).text
    ∧ (putStmt tbl k v).args = [Arg.str k, Arg.bytes v]
    ∧ (deleteStmt tbl k).text = (deleteStmt tbl k2).text
    ∧ (deleteStmt tbl k).args = [Arg.str k]
    ∧ (queryStmt tbl q).args = [] :=
  ⟨rfl, rfl, rfl, rfl, rfl, rfl, rfl, rfl, rfl, rfl, rfl⟩

/-- Claim C10: batch Put and batch Delete always return nil, each queueing
exactly the three statements BEGIN, the data statement, COMMIT, so every
queued operation runs in its own autonomous transaction, a batch of n
operations holds three times n statements, and a fully successful Commit
drains three times n results. -/
theorem batch_ops_queue_three_statements (tbl : String) (b : List Stmt)
    (k : String) (v : Bytes) (ops : List BatchOp) :
    (batchPutQueue tbl b k v).2 = none
    ∧ (batchDeleteQueue tbl b k).2 = none
    ∧ (batchPutQueue tbl b k v).1 = b ++ [beginStmt, putStmt tbl k v, commitStmt]
    ∧ (batchDeleteQueue tbl b k).1 = b ++ [beginStmt, deleteStmt tbl k, commitStmt]
    ∧ queueOps tbl [] ops = (ops.map (opStmts tbl)).flatten
    ∧ (queueOps tbl [] ops).length = 3 * ops.length
    ∧ (commitDrain ((queueOps tbl [] ops).map
        (fun _ => (none : Option DsError)))).2 = 3 * ops.length := by
  have hq : queueOps tbl [] ops = (ops.map (opStmts tbl)).flatten := by
    simpa using queueOps_eq tbl [] ops
  have hlen : (queueOps tbl [] ops).length = 3 * ops.length := by
    rw [hq]; exact flatten_opStmts_length tbl ops
  refine ⟨rfl, rfl, rfl, rfl, hq, hlen, ?_⟩
  rw [commitDrain_map_none (queueOps tbl [] ops), hlen]
